import Mathlib

/-!
# Verification of the Gemini browser-extension streaming pipeline

Shallow embedding of the streaming relay server (`server.js`, Express
endpoint `POST /api/gemini`) and of the popup client (`popup.js`:
`sendPrompt`, `cleanChunk`, `enqueueText`, `startTyper`/`stopTyper`, and the
conversation-history handling), together with theorems about the testable
properties stated in the specification.

Strings are modelled as Lean `String`/`List Char`. JavaScript's
per-UTF-16-code-unit behaviour is approximated by per-scalar-value (`Char`)
behaviour; the two coincide on all text without lone surrogates.
Recursive functions are written structurally or with an explicit fuel that
provably suffices, so that every definition reduces in the kernel and
concrete witnesses can be checked by `decide`.
-/

namespace GeminiScraper

/-! ## Chunk normalization (`cleanChunk` in popup.js, `cleanText` in server.js)

Both functions perform: (1) a guarded JSON-envelope unwrap via `JSON.parse`,
(2) `s.replace(/\\n/g, '\n').replace(/\\t/g, '\t')`, and (3)
`s.replace(/\*\*(.*?)\*\*/g, '$1')`. They differ only in the guard regex. -/

/-- Characters matched by JavaScript's regex class `\s` (also exactly the
set removed by `String.prototype.trim`): tab, LF, VT, FF, CR, space, NBSP,
Ogham space mark, U+2000..U+200A, LS, PS, NNBSP, MMSP, ideographic space,
BOM. -/
def jsWs (c : Char) : Bool :=
  let n := c.toNat
  n == 0x09 || n == 0x0a || n == 0x0b || n == 0x0c || n == 0x0d || n == 0x20 ||
  n == 0xa0 || n == 0x1680 || (decide (0x2000 ≤ n) && decide (n ≤ 0x200a)) ||
  n == 0x2028 || n == 0x2029 || n == 0x202f || n == 0x205f || n == 0x3000 ||
  n == 0xfeff

/-- JavaScript `String.prototype.trim` on a character list: strip `jsWs`
characters from both ends. -/
def jsTrimL (cs : List Char) : List Char :=
  ((cs.dropWhile jsWs).reverse.dropWhile jsWs).reverse

/-- JavaScript `String.prototype.trim`. -/
def jsTrim (s : String) : String := ⟨jsTrimL s.data⟩

/-- Test of the client guard regex `/^\s*\{\s*"text"\s*:/` from `cleanChunk`:
optional whitespace, an opening brace, optional whitespace, the literal
`"text"`, optional whitespace, a colon. -/
def looksLikeJsonChunk (cs : List Char) : Bool :=
  match cs.dropWhile jsWs with
  | '\x7b' :: r =>
    match r.dropWhile jsWs with
    | '"' :: 't' :: 'e' :: 'x' :: 't' :: '"' :: r2 =>
      match r2.dropWhile jsWs with
      | ':' :: _ => true
      | _ => false
    | _ => false
  | _ => false

/-- Test of the server guard regex `/^\s*\{\s*"text"\s*:\s*"/` from
`cleanText`: like the client guard but additionally requiring a double
quote after the colon (and optional whitespace). -/
def looksLikeJsonText (cs : List Char) : Bool :=
  match cs.dropWhile jsWs with
  | '\x7b' :: r =>
    match r.dropWhile jsWs with
    | '"' :: 't' :: 'e' :: 'x' :: 't' :: '"' :: r2 =>
      match r2.dropWhile jsWs with
      | ':' :: r3 =>
        match r3.dropWhile jsWs with
        | '"' :: _ => true
        | _ => false
      | _ => false
    | _ => false
  | _ => false

/-- `s.replace(/\\c/g, r)` for a single escape letter `c`: scan left to
right, replacing each non-overlapping occurrence of backslash then `c` by
`r`; on a failed match the scan advances by one character. -/
def replEsc (t r : Char) : List Char → List Char
  | [] => []
  | c1 :: rest =>
    if c1 = '\x5c' then
      match rest with
      | c2 :: rest2 =>
        if c2 = t then r :: replEsc t r rest2
        else c1 :: replEsc t r (c2 :: rest2)
      | [] => [c1]
    else c1 :: replEsc t r rest

/-- Line terminators, which JavaScript's regex `.` does not match. -/
def isLineTerm (c : Char) : Bool :=
  let n := c.toNat
  n == 0x0a || n == 0x0d || n == 0x2028 || n == 0x2029

/-- Matching of the tail `(.*?)\*\*` of the bold regex after an opening
`**`: find the shortest prefix (containing no line terminator, since `.`
does not match line terminators) that is followed by a closing `**`; return
the content and the characters after the close. `none` when no close exists
(lazy-quantifier semantics of `/\*\*(.*?)\*\*/`). -/
def boldClose : List Char → Option (List Char × List Char)
  | [] => none
  | c1 :: rest =>
    if c1 = '*' ∧ rest.head? = some '*' then some ([], rest.tail)
    else if isLineTerm c1 then none
    else
      match boldClose rest with
      | some (t, r) => some (c1 :: t, r)
      | none => none

/-- Fueled scan for the global replacement `s.replace(/\*\*(.*?)\*\*/g, '$1')`:
at a position starting with `**` whose tail admits a lazy close, emit the
content and continue after the close; otherwise emit one character and
advance by one (the regex engine retries at the next position). Fuel at
least the input length always suffices: every step consumes at least one
input character. -/
def boldStripGo : Nat → List Char → List Char
  | 0, cs => cs
  | _ + 1, [] => []
  | fuel + 1, c1 :: rest =>
    if c1 = '*' ∧ rest.head? = some '*' then
      match boldClose rest.tail with
      | some (t, r) => t ++ boldStripGo fuel r
      | none => c1 :: boldStripGo fuel rest
    else c1 :: boldStripGo fuel rest

/-- `s.replace(/\*\*(.*?)\*\*/g, '$1')`. -/
def boldStrip (cs : List Char) : List Char := boldStripGo cs.length cs

/-- Whether two consecutive `*` characters occur anywhere (the only shape at
which the bold regex can start a match). -/
def hasTwoStars : List Char → Bool
  | [] => false
  | c1 :: rest => (decide (c1 = '*') && decide (rest.head? = some '*')) || hasTwoStars rest

/-- Whether the text is backslash-free (then both escape replacements are
no-ops). -/
def noBackslash (cs : List Char) : Bool := cs.all (fun c => c ≠ '\x5c')

/-! ### A model of `JSON.parse`, for the envelope unwrap

`JSON.parse(s)` followed by
`parsed && typeof parsed.text === 'string' ? parsed.text : keep original`. -/

/-- JSON whitespace (RFC 8259): space, tab, LF, CR. -/
def jsonWs (c : Char) : Bool :=
  c == ' ' || c == '\x09' || c == '\x0a' || c == '\x0d'

/-- Skip JSON whitespace. -/
def skipWs (cs : List Char) : List Char := cs.dropWhile jsonWs

/-- JSON values. Numeric values are irrelevant to the envelope unwrap (only
a string `text` member is ever extracted), so numbers carry no payload. -/
inductive JVal where
  | jnull : JVal
  | jbool : Bool → JVal
  | jnum : JVal
  | jstr : List Char → JVal
  | jarr : List JVal → JVal
  | jobj : List (List Char × JVal) → JVal

/-- Value of a hexadecimal digit. -/
def hexVal (c : Char) : Option Nat :=
  if '0' ≤ c ∧ c ≤ '9' then some (c.toNat - '0'.toNat)
  else if 'a' ≤ c ∧ c ≤ 'f' then some (c.toNat - 'a'.toNat + 10)
  else if 'A' ≤ c ∧ c ≤ 'F' then some (c.toNat - 'A'.toNat + 10)
  else none

/-- Parse the body of a JSON string literal (after the opening quote);
return the decoded characters and the input after the closing quote.
Control characters below U+0020 and invalid escapes are rejected, as in
`JSON.parse`. A `\uXXXX` escape denoting a lone surrogate (not
representable as a Lean scalar `Char`) is approximated by `Char.ofNat`'s
fallback. -/
def parseJStr : List Char → Option (List Char × List Char)
  | [] => none
  | '"' :: rest => some ([], rest)
  | '\x5c' :: rest =>
    (match rest with
     | '"' :: r => (parseJStr r).map (fun (s, r2) => ('"' :: s, r2))
     | '\x5c' :: r => (parseJStr r).map (fun (s, r2) => ('\x5c' :: s, r2))
     | '/' :: r => (parseJStr r).map (fun (s, r2) => ('/' :: s, r2))
     | 'b' :: r => (parseJStr r).map (fun (s, r2) => ('\x08' :: s, r2))
     | 'f' :: r => (parseJStr r).map (fun (s, r2) => ('\x0c' :: s, r2))
     | 'n' :: r => (parseJStr r).map (fun (s, r2) => ('\x0a' :: s, r2))
     | 'r' :: r => (parseJStr r).map (fun (s, r2) => ('\x0d' :: s, r2))
     | 't' :: r => (parseJStr r).map (fun (s, r2) => ('\x09' :: s, r2))
     | 'u' :: h1 :: h2 :: h3 :: h4 :: r =>
       (match hexVal h1, hexVal h2, hexVal h3, hexVal h4 with
        | some a, some b, some c, some d =>
          (parseJStr r).map
            (fun (s, r2) => (Char.ofNat (((a * 16 + b) * 16 + c) * 16 + d) :: s, r2))
        | _, _, _, _ => none)
     | _ => none)
  | c :: rest =>
    if c.toNat < 0x20 then none
    else (parseJStr rest).map (fun (s, r2) => (c :: s, r2))

/-- Decimal digit test for JSON numbers. -/
def isJDigit (c : Char) : Bool := '0' ≤ c && c ≤ '9'

/-- JSON `int` production: `0`, or a nonzero digit followed by digits. -/
def parseJInt : List Char → Option (List Char)
  | '0' :: rest => some rest
  | c :: rest => if isJDigit c then some (rest.dropWhile isJDigit) else none
  | [] => none

/-- JSON `frac` production: optionally a dot followed by one or more
digits. -/
def parseJFrac : List Char → Option (List Char)
  | '.' :: rest =>
    (match rest with
     | d :: _ => if isJDigit d then some (rest.dropWhile isJDigit) else none
     | [] => none)
  | cs => some cs

/-- JSON `exp` production: optionally `e`/`E`, an optional sign, and one or
more digits. -/
def parseJExp : List Char → Option (List Char)
  | [] => some []
  | e :: rest =>
    if e = 'e' ∨ e = 'E' then
      let rest2 := match rest with
                   | s :: r => if s = '+' ∨ s = '-' then r else s :: r
                   | [] => []
      match rest2 with
      | d :: _ => if isJDigit d then some (rest2.dropWhile isJDigit) else none
      | [] => none
    else some (e :: rest)

/-- JSON `number` production: optional minus, int, frac, exp. -/
def parseJNum (cs : List Char) : Option (List Char) :=
  let cs1 := match cs with
             | '-' :: r => r
             | _ => cs
  match parseJInt cs1 with
  | none => none
  | some r1 =>
    match parseJFrac r1 with
    | none => none
    | some r2 => parseJExp r2

mutual

/-- Fueled JSON value parser. Fuel at least the input length always
suffices: every recursive call follows the consumption of at least one
input character. -/
def parseJVal : Nat → List Char → Option (JVal × List Char)
  | 0, _ => none
  | fuel + 1, cs =>
    match cs with
    | '\x7b' :: rest =>
      (match skipWs rest with
       | '\x7d' :: r => some (JVal.jobj [], r)
       | cs2 => (parseJMembers fuel cs2).map (fun (ms, r) => (JVal.jobj ms, r)))
    | '[' :: rest =>
      (match skipWs rest with
       | ']' :: r => some (JVal.jarr [], r)
       | cs2 => (parseJElems fuel cs2).map (fun (xs, r) => (JVal.jarr xs, r)))
    | '"' :: rest => (parseJStr rest).map (fun (s, r) => (JVal.jstr s, r))
    | 't' :: 'r' :: 'u' :: 'e' :: r => some (JVal.jbool true, r)
    | 'f' :: 'a' :: 'l' :: 's' :: 'e' :: r => some (JVal.jbool false, r)
    | 'n' :: 'u' :: 'l' :: 'l' :: r => some (JVal.jnull, r)
    | _ => (parseJNum cs).map (fun r => (JVal.jnum, r))

/-- Object members: `string ws : ws value ws` then a comma and more
members, or a closing brace. -/
def parseJMembers : Nat → List Char → Option (List (List Char × JVal) × List Char)
  | 0, _ => none
  | fuel + 1, cs =>
    match cs with
    | '"' :: rest =>
      (match parseJStr rest with
       | none => none
       | some (key, r1) =>
         match skipWs r1 with
         | ':' :: r2 =>
           (match parseJVal fuel (skipWs r2) with
            | none => none
            | some (v, r3) =>
              match skipWs r3 with
              | ',' :: r4 =>
                (parseJMembers fuel (skipWs r4)).map (fun (ms, r5) => ((key, v) :: ms, r5))
              | '\x7d' :: r4 => some ([(key, v)], r4)
              | _ => none)
         | _ => none)
    | _ => none

/-- Array elements: `value ws` then a comma and more elements, or a closing
bracket. -/
def parseJElems : Nat → List Char → Option (List JVal × List Char)
  | 0, _ => none
  | fuel + 1, cs =>
    match parseJVal fuel cs with
    | none => none
    | some (v, r1) =>
      match skipWs r1 with
      | ',' :: r2 => (parseJElems fuel (skipWs r2)).map (fun (xs, r3) => (v :: xs, r3))
      | ']' :: r2 => some ([v], r2)
      | _ => none

end

/-- `JSON.parse`: one JSON value with surrounding whitespace; the whole
input must be consumed. -/
def jsonParse (cs : List Char) : Option JVal :=
  match parseJVal (cs.length + 1) (skipWs cs) with
  | some (v, rest) => if skipWs rest = [] then some v else none
  | none => none

/-- `parsed && typeof parsed.text === 'string'` then `parsed.text`: the
unwrap applies when the parsed value is an object (objects are always
truthy) whose `text` property is a string. With duplicate JSON keys,
`JSON.parse` keeps the last member, so the last `"text"` member decides.
Values of other shapes have no string `text` property. -/
def jsonTextField (cs : List Char) : Option (List Char) :=
  match jsonParse cs with
  | some (JVal.jobj ms) =>
    match (ms.reverse.find? (fun m => m.1 = "text".data)).map Prod.snd with
    | some (JVal.jstr t) => some t
    | _ => none
  | _ => none

/-- The client's `cleanChunk` (popup.js) on a character list: empty input
maps to empty (the `!raw` falsy check); then the guarded JSON unwrap
(keeping the input when parsing fails or yields no string `text` member),
then `\n`/`\t` unescaping, then markdown-bold stripping. -/
def cleanChunkL (raw : List Char) : List Char :=
  if raw = [] then []
  else
    let s1 := if looksLikeJsonChunk raw then
                match jsonTextField raw with
                | some t => t
                | none => raw
              else raw
    let s2 := replEsc 'n' '\x0a' s1
    let s3 := replEsc 't' '\x09' s2
    boldStrip s3

/-- The client's `cleanChunk` (popup.js). -/
def cleanChunk (s : String) : String := ⟨cleanChunkL s.data⟩

/-- The server's `cleanText` (server.js) on a character list: identical to
`cleanChunk` except for the stricter guard regex. -/
def cleanTextL (raw : List Char) : List Char :=
  if raw = [] then []
  else
    let s1 := if looksLikeJsonText raw then
                match jsonTextField raw with
                | some t => t
                | none => raw
              else raw
    let s2 := replEsc 'n' '\x0a' s1
    let s3 := replEsc 't' '\x09' s2
    boldStrip s3

/-- The server's `cleanText` (server.js). -/
def cleanText (s : String) : String := ⟨cleanTextL s.data⟩

/-! ## The client (popup.js)

`typeQueue`, `typerInterval`, `startTyper`, `stopTyper`, `enqueueText`, the
stream-read loop of `sendPrompt`, and the conversation history. -/

/-- Speaker role of a conversation turn. -/
inductive Role where
  | user : Role
  | model : Role
deriving DecidableEq

/-- One conversation turn `{role, parts: [{text}]}`. The code always uses a
single-element `parts` array, modelled as one text field. -/
structure Turn where
  role : Role
  text : String
deriving DecidableEq

/-- `TYPING_BATCH`: characters moved per render tick. -/
def TYPING_BATCH : Nat := 4

/-- Render-pump state: `typeQueue` (the character queue), `respText`
(`responseDiv.textContent`, which the pump appends into), and `typerOn`
(whether `typerInterval` is set). -/
structure TyperState where
  typeQueue : List Char
  respText : List Char
  typerOn : Bool

/-- One firing of the `setInterval` callback installed by `startTyper`: if
the queue is empty do nothing, else splice the first `TYPING_BATCH`
characters off the queue and append them to the visible output. (The
callback only fires while the interval is installed; modelling a firing on
any state is sound because the body is state-independent.) -/
def typerTick (st : TyperState) : TyperState :=
  if st.typeQueue = [] then st
  else { st with respText := st.respText ++ st.typeQueue.take TYPING_BATCH,
                 typeQueue := st.typeQueue.drop TYPING_BATCH }

/-- `enqueueText(text)`: push the characters of `text` individually onto the
queue, then `startTyper()` (a no-op when the interval is already set). -/
def enqueueText (t : String) (st : TyperState) : TyperState :=
  { st with typeQueue := st.typeQueue ++ t.data, typerOn := true }

/-- `stopTyper()`: clear the interval. The queue is untouched. -/
def stopTyper (st : TyperState) : TyperState := { st with typerOn := false }

/-- Events interleaved during the stream-read loop of `sendPrompt`: a
decoded network chunk arriving at `reader.read()`, or a render tick. -/
inductive StreamEv where
  | recv : String → StreamEv
  | tick : StreamEv

/-- One event of the read loop, acting on the pump state paired with the
`fullResponse` accumulator: a received chunk is passed through `cleanChunk`
and, when nonempty, enqueued and appended to `fullResponse`
(`if (chunkText) { enqueueText(chunkText); fullResponse += chunkText; }`);
a tick runs the pump callback. -/
def readStep : TyperState × String → StreamEv → TyperState × String
  | (ui, full), StreamEv.recv c =>
    let t := cleanChunk c
    if t = "" then (ui, full) else (enqueueText t ui, full ++ t)
  | (ui, full), StreamEv.tick => (typerTick ui, full)

/-- The stream-read loop: process the events in order. -/
def readLoop (s : TyperState × String) (evs : List StreamEv) : TyperState × String :=
  evs.foldl readStep s

/-- The chunks received during an event sequence, in arrival order. -/
def recvChunks : List StreamEv → List String
  | [] => []
  | StreamEv.recv c :: es => c :: recvChunks es
  | StreamEv.tick :: es => recvChunks es

/-- Fueled draining of the queue by repeated render ticks (the
`await new Promise` poll in `sendPrompt` returns only once
`typeQueue.length === 0`, while the interval keeps firing). Fuel at least
the queue length suffices: each tick on a nonempty queue removes at least
one character. -/
def drainGo : Nat → TyperState → TyperState
  | 0, st => st
  | fuel + 1, st => if st.typeQueue = [] then st else drainGo fuel (typerTick st)

/-- Run render ticks until the queue is empty. -/
def drainQueue (st : TyperState) : TyperState := drainGo st.typeQueue.length st

/-- The JSON body the client POSTs to `/api/gemini`:
`{ prompt, conversationHistory: historyToSend }`. -/
structure GeminiRequest where
  prompt : String
  conversationHistory : List Turn
deriving DecidableEq

/-- How a send terminates, as observed at the client's await points:
the stream completes (`success`), an `AbortError` is raised
(`abortError`, after the events so far), or any other fetch/stream error
is raised, including a non-ok HTTP status (`fetchError`, with the message
of the thrown error). -/
inductive SendOutcome where
  | success : List StreamEv → SendOutcome
  | abortError : List StreamEv → SendOutcome
  | fetchError : List StreamEv → String → SendOutcome

/-- The cancellation marker appended on `AbortError`. -/
def CANCEL_MARKER : String := "\n[Cancelled]\n"

/-- Lines 268-285 of popup.js, run after the queue has drained: if
`fullResponse.trim()` is nonempty, push a `model` turn with the trimmed
text, then `if (conversationHistory.length > 10) conversationHistory =
conversationHistory.slice(-10)`. -/
def appendModelTurn (h : List Turn) (full : String) : List Turn :=
  if jsTrim full = "" then h
  else
    let h2 := h ++ [(⟨Role.model, jsTrim full⟩ : Turn)]
    if 10 < h2.length then h2.drop (h2.length - 10) else h2

/-- Client state: the in-memory `conversationHistory`, its persisted mirror
for the active page (`saveStoredHistory` copies the in-memory list into
storage), the pump/output state, and the status label. -/
structure ClientState where
  history : List Turn
  stored : List Turn
  ui : TyperState
  status : String

/-- `sendPrompt(prompt)`: trims the prompt and bails out on an empty one;
otherwise pushes a `user` turn, persists, clears the output, sends
`{prompt, conversationHistory: history.slice(0, -1)}`, and runs the read
loop. On success it drains the queue, appends the model turn (capped at
10, persisted), and sets status `done`. On `AbortError` it appends the
cancellation marker to the output and sets status `cancelled`; on any
other error it replaces the output with the error text and sets status
`error`. The `finally` block always runs `stopTyper()`. Returns the final
state and the request sent (`none` when validation failed and no request
was made). UI-only effects (button enabling, the loading box, the input
field) are not modelled. -/
def sendPrompt (st : ClientState) (rawPrompt : String) (outcome : SendOutcome) :
    ClientState × Option GeminiRequest :=
  let prompt := jsTrim rawPrompt
  if prompt = "" then
    ({ st with ui := { st.ui with respText := "Please enter a question.".data } }, none)
  else
    let h1 := st.history ++ [⟨Role.user, prompt⟩]
    let ui1 : TyperState := { st.ui with respText := [] }
    let req : GeminiRequest := ⟨prompt, h1.dropLast⟩
    match outcome with
    | SendOutcome.success evs =>
      let ui2 := (readLoop (ui1, "") evs).1
      let full := (readLoop (ui1, "") evs).2
      let h2 := appendModelTurn h1 full
      ({ history := h2, stored := h2, ui := stopTyper (drainQueue ui2),
         status := "done" }, some req)
    | SendOutcome.abortError evs =>
      let ui2 := (readLoop (ui1, "") evs).1
      ({ history := h1, stored := h1,
         ui := stopTyper { ui2 with respText := ui2.respText ++ CANCEL_MARKER.data },
         status := "cancelled" }, some req)
    | SendOutcome.fetchError evs msg =>
      let ui2 := (readLoop (ui1, "") evs).1
      ({ history := h1, stored := h1,
         ui := stopTyper { ui2 with respText := ("Error: " ++ msg).data },
         status := "error" }, some req)

/-- The pump state at the start of a fresh send: empty queue, cleared
output, interval not installed. -/
def initTyper : TyperState := ⟨[], [], false⟩

/-- A fresh client session: empty history and storage, idle UI. -/
def initClient : ClientState := ⟨[], [], initTyper, "idle"⟩

/-! ## The relay server (server.js)

`app.post('/api/gemini', ...)`: prompt validation, the upstream call, the
`for await` forwarding loop with the `clientAborted` flag, and the error
handling around them. -/

/-- The parsed JSON request body. `prompt` is `none` when the field is
absent (`const { prompt } = req.body` yields `undefined`); the falsy check
`if (!prompt)` rejects both an absent and an empty prompt.
`conversationHistory` is the field the client sends. -/
structure GeminiBody where
  prompt : Option String
  conversationHistory : List Turn
deriving DecidableEq

/-- The argument object of `ai.models.generateContentStream({model,
contents, config: {systemInstruction}})`. -/
structure UpstreamRequest where
  model : String
  contents : String
  systemInstruction : String
deriving DecidableEq

/-- The fixed model name of the upstream call. -/
def GEMINI_MODEL : String := "gemini-2.5-flash"

/-- The fixed system instruction of the upstream call. -/
def SYSTEM_INSTRUCTION : String :=
  "You are a concise, helpful assistant. Provide a short, accurate answer in about 80-100 words. Avoid filler."

/-- The upstream call made for a request body, when one is made: for a
present, nonempty prompt the handler calls `generateContentStream` with the
fixed model name, `contents: prompt`, and the fixed system instruction.
Nothing else from the body reaches the call. -/
def upstreamRequest (body : GeminiBody) : Option UpstreamRequest :=
  match body.prompt with
  | none => none
  | some p => if p = "" then none else some ⟨GEMINI_MODEL, p, SYSTEM_INSTRUCTION⟩

/-- Behaviour of the upstream stream: it yields all its chunks and
completes; the `await ai.models.generateContentStream(...)` itself throws
(`initError`); or iteration throws after yielding a prefix of chunks
(`streamError`). Chunks are modelled by their `.text` payload (`''` for a
chunk carrying no text). -/
inductive UpstreamBehavior where
  | ok : List String → UpstreamBehavior
  | initError : UpstreamBehavior
  | streamError : List String → UpstreamBehavior

/-- What the handler sends back: a JSON error response with a status code
(no stream bytes written), or a streamed plain-text response listing the
`res.write` payloads in order, with `ended` recording that `res.end()` ran. -/
inductive ServerResponse where
  | jsonError : Nat → String → ServerResponse
  | stream : List String → Bool → ServerResponse
deriving DecidableEq

/-- The 400 error body. -/
def PROMPT_REQUIRED : String := "Prompt is required"

/-- The 500 error body of the outer catch. -/
def INTERNAL_ERROR : String := "Internal Server Error"

/-- The 500 error body when stream iteration fails before any write. -/
def STREAMING_ERROR : String := "Error during streaming"

/-- The in-band marker written when stream iteration fails after a write. -/
def STREAM_ERROR_MARKER : String := "\n[Stream ended with an error]\n"

/-- The `for await (const chunk of stream)` forwarding loop. Each iteration
pulls a chunk, then checks `clientAborted` and breaks if set, then writes
`cleanText(chunk.text)` when nonempty. `abortAt` is the number of
iterations that observe the flag still unset — the flag is set once by the
`res.on('close')` handler and never cleared, so the iteration at index
`abortAt` (if reached) is the first to observe it. Returns the list of
written strings and the number of chunks pulled from upstream. -/
def relayLoop : List String → Nat → List String × Nat
  | [], _ => ([], 0)
  | _ :: _, 0 => ([], 1)
  | c :: cs, k + 1 =>
    let r := relayLoop cs k
    let t := cleanText c
    ((if t = "" then r.1 else t :: r.1), r.2 + 1)

/-- The request handler `app.post('/api/gemini', ...)`. Control flow of the
source: missing/empty prompt gives `400 {error}` before any header is set;
a throwing upstream call is caught by the outer catch with no bytes
written, giving `500 {error}`; otherwise the forwarding loop runs until
completion, abort, or a stream error. A stream error before any successful
write (`!res.headersSent`) gives `500 {error}`; after a write, the in-band
marker is written instead and the response is ended. An abort observed at
iteration `abortAt < pre.length` breaks out of the loop before the failing
pull, so the stream error is never raised. The `finally` always runs
`res.end()`. -/
def handleGemini (body : GeminiBody) (up : UpstreamBehavior) (abortAt : Nat) :
    ServerResponse :=
  match body.prompt with
  | none => ServerResponse.jsonError 400 PROMPT_REQUIRED
  | some p =>
    if p = "" then ServerResponse.jsonError 400 PROMPT_REQUIRED
    else
      match up with
      | UpstreamBehavior.initError => ServerResponse.jsonError 500 INTERNAL_ERROR
      | UpstreamBehavior.ok chunks => ServerResponse.stream (relayLoop chunks abortAt).1 true
      | UpstreamBehavior.streamError pre =>
        if abortAt < pre.length then ServerResponse.stream (relayLoop pre abortAt).1 true
        else
          let ws := (relayLoop pre abortAt).1
          if ws = [] then ServerResponse.jsonError 500 STREAMING_ERROR
          else ServerResponse.stream (ws ++ [STREAM_ERROR_MARKER]) true

/-! ## Helper lemmas -/

theorem typerTick_conserve (st : TyperState) :
    (typerTick st).respText ++ (typerTick st).typeQueue = st.respText ++ st.typeQueue := by
  unfold typerTick
  split
  · rfl
  · simp [List.append_assoc, List.take_append_drop]

theorem drainGo_conserve : ∀ (fuel : Nat) (st : TyperState),
    (drainGo fuel st).respText ++ (drainGo fuel st).typeQueue = st.respText ++ st.typeQueue := by
  intro fuel
  induction fuel with
  | zero => intro st; rfl
  | succ fuel ih =>
    intro st
    unfold drainGo
    split
    · rfl
    · rw [ih (typerTick st), typerTick_conserve]

theorem drainGo_empty : ∀ (fuel : Nat) (st : TyperState),
    st.typeQueue.length ≤ fuel → (drainGo fuel st).typeQueue = [] := by
  intro fuel
  induction fuel with
  | zero =>
    intro st h
    have hq : st.typeQueue = [] := List.length_eq_zero.mp (Nat.le_zero.mp h)
    simpa [drainGo] using hq
  | succ fuel ih =>
    intro st h
    unfold drainGo
    split
    · next hq => exact hq
    · next hq =>
      apply ih
      have ht : (typerTick st).typeQueue = st.typeQueue.drop TYPING_BATCH := by
        simp [typerTick, hq]
      rw [ht]
      simp only [List.length_drop, TYPING_BATCH]
      omega

theorem drainQueue_conserve (st : TyperState) :
    (drainQueue st).respText ++ (drainQueue st).typeQueue = st.respText ++ st.typeQueue :=
  drainGo_conserve st.typeQueue.length st

theorem drainQueue_empty (st : TyperState) : (drainQueue st).typeQueue = [] :=
  drainGo_empty st.typeQueue.length st (Nat.le_refl _)

theorem readLoop_cons (s : TyperState × String) (ev : StreamEv) (evs : List StreamEv) :
    readLoop s (ev :: evs) = readLoop (readStep s ev) evs := rfl

theorem readLoop_inv (evs : List StreamEv) : ∀ (ui : TyperState) (full : String),
    (readLoop (ui, full) evs).1.respText ++ (readLoop (ui, full) evs).1.typeQueue =
      (ui.respText ++ ui.typeQueue) ++
        ((recvChunks evs).map (fun c => (cleanChunk c).data)).flatten := by
  induction evs with
  | nil => intro ui full; simp [readLoop, recvChunks]
  | cons ev evs ih =>
    intro ui full
    cases ev with
    | tick =>
      rw [readLoop_cons]
      have hst : readStep (ui, full) StreamEv.tick = (typerTick ui, full) := rfl
      rw [hst, ih (typerTick ui) full, typerTick_conserve]
      rfl
    | recv c =>
      rw [readLoop_cons]
      by_cases hc : cleanChunk c = ""
      · have hst : readStep (ui, full) (StreamEv.recv c) = (ui, full) := by
          simp [readStep, hc]
        rw [hst, ih ui full]
        simp [recvChunks, hc]
      · have hst : readStep (ui, full) (StreamEv.recv c) =
            (enqueueText (cleanChunk c) ui, full ++ cleanChunk c) := by
          simp [readStep, hc]
        rw [hst, ih (enqueueText (cleanChunk c) ui) (full ++ cleanChunk c)]
        simp [recvChunks, enqueueText, List.append_assoc]

theorem hasTwoStars_cons {c1 : Char} {rest : List Char}
    (h : hasTwoStars (c1 :: rest) = false) :
    ¬(c1 = '*' ∧ rest.head? = some '*') ∧ hasTwoStars rest = false := by
  simp [hasTwoStars] at h
  obtain ⟨h1, h2⟩ := h
  constructor
  · rintro ⟨ha, hb⟩
    exact absurd hb (h1 ha)
  · exact h2

theorem boldStripGo_fix : ∀ (fuel : Nat) (cs : List Char),
    hasTwoStars cs = false → boldStripGo fuel cs = cs := by
  intro fuel
  induction fuel with
  | zero => intro cs _; rfl
  | succ fuel ih =>
    intro cs h
    match cs with
    | [] => rfl
    | c1 :: rest =>
      obtain ⟨hstar, hrest⟩ := hasTwoStars_cons h
      simp only [boldStripGo, if_neg hstar]
      rw [ih rest hrest]

theorem boldStrip_fix (cs : List Char) (h : hasTwoStars cs = false) : boldStrip cs = cs :=
  boldStripGo_fix cs.length cs h

theorem replEsc_fix (t r : Char) : ∀ (cs : List Char),
    noBackslash cs = true → replEsc t r cs = cs := by
  intro cs
  induction cs with
  | nil => intro _; rfl
  | cons c1 rest ih =>
    intro h
    simp only [noBackslash, List.all_cons, Bool.and_eq_true, decide_eq_true_eq] at h
    obtain ⟨h1, h2⟩ := h
    have hr : replEsc t r rest = rest := ih (by simpa [noBackslash] using h2)
    cases rest with
    | nil => simp [replEsc, h1]
    | cons c2 rest2 => simp [replEsc, h1, hr]

theorem cleanChunkL_fix (cs : List Char) (h1 : noBackslash cs = true)
    (h2 : hasTwoStars cs = false) (h3 : looksLikeJsonChunk cs = false) :
    cleanChunkL cs = cs := by
  by_cases hcs : cs = []
  · simp [cleanChunkL, hcs]
  · simp only [cleanChunkL, if_neg hcs, h3, Bool.false_eq_true, if_false]
    rw [replEsc_fix _ _ _ h1, replEsc_fix _ _ _ h1, boldStrip_fix _ h2]

theorem cleanTextL_fix (cs : List Char) (h1 : noBackslash cs = true)
    (h2 : hasTwoStars cs = false) (h3 : looksLikeJsonText cs = false) :
    cleanTextL cs = cs := by
  by_cases hcs : cs = []
  · simp [cleanTextL, hcs]
  · simp only [cleanTextL, if_neg hcs, h3, Bool.false_eq_true, if_false]
    rw [replEsc_fix _ _ _ h1, replEsc_fix _ _ _ h1, boldStrip_fix _ h2]

theorem relayLoop_writes : ∀ (cs : List String) (k : Nat),
    (relayLoop cs k).1 = ((cs.take k).map cleanText).filter (fun t => t ≠ "") := by
  intro cs
  induction cs with
  | nil => intro k; simp [relayLoop]
  | cons c cs ih =>
    intro k
    cases k with
    | zero => simp [relayLoop]
    | succ k =>
      simp only [relayLoop, List.take_succ_cons, List.map_cons, List.filter_cons]
      rw [ih k]
      by_cases hc : cleanText c = ""
      · simp [hc]
      · simp [hc]

theorem relayLoop_pulls : ∀ (cs : List String) (k : Nat),
    (relayLoop cs k).2 = min cs.length (k + 1) := by
  intro cs
  induction cs with
  | nil => intro k; simp [relayLoop]
  | cons c cs ih =>
    intro k
    cases k with
    | zero => simp [relayLoop]
    | succ k =>
      simp only [relayLoop, List.length_cons]
      rw [ih k]
      omega

/-! ## Claim theorems -/

/-- Claim C1: for every sequence of network chunks received in order by the
client's stream-read loop during a single send, the text appended to the
visible output by the render pump once the queue has drained equals the
concatenation of `cleanChunk` of each chunk, in the same relative order,
regardless of how render ticks are interleaved with chunk arrivals. (The
output starts empty at the beginning of a send, so the final `respText` is
exactly what the pump appended.) -/
theorem claim1_render_order (evs : List StreamEv) :
    (drainQueue (readLoop (initTyper, "") evs).1).respText =
      ((recvChunks evs).map (fun c => (cleanChunk c).data)).flatten := by
  have hinv := readLoop_inv evs initTyper ""
  have h1 := drainQueue_empty (readLoop (initTyper, "") evs).1
  have h2 := drainQueue_conserve (readLoop (initTyper, "") evs).1
  rw [h1, List.append_nil] at h2
  rw [h2, hinv]
  rfl

/-- Claim C2 counterexample: the upstream call is byte-for-byte identical
whether or not prior turns are supplied in the request body, so the call
does not include the request's `conversationHistory` (the server
destructures only `prompt` from the body and passes `contents: prompt`
upstream). -/
theorem claim2_cex_history_ignored :
    upstreamRequest ⟨some ("hi"), [⟨Role.user, ("earlier question")⟩]⟩ =
      upstreamRequest ⟨some ("hi"), []⟩ ∧
    ([⟨Role.user, ("earlier question")⟩] : List Turn) ≠ [] :=
  ⟨rfl, by decide⟩

/-- Claim C2, amended: for every request with a present, nonempty prompt,
the call made to the upstream generation client consists of the fixed model
name, the prompt as `contents`, and the fixed system instruction only; the
`conversationHistory` supplied in the request body does not influence the
call, so the upstream stream is generated from the prompt alone. -/
theorem claim2_amended_prompt_only (p : String) (h1 h2 : List Turn) (hp : p ≠ "") :
    upstreamRequest ⟨some p, h1⟩ = some ⟨GEMINI_MODEL, p, SYSTEM_INSTRUCTION⟩ ∧
    upstreamRequest ⟨some p, h1⟩ = upstreamRequest ⟨some p, h2⟩ := by
  constructor <;> simp [upstreamRequest, hp]

/-- Witness for `claim2_amended_prompt_only` at a concrete request. -/
theorem claim2_witness :
    ("hi" : String) ≠ "" ∧
    (upstreamRequest ⟨some ("hi"), [⟨Role.user, ("earlier question")⟩]⟩ =
        some ⟨GEMINI_MODEL, ("hi"), SYSTEM_INSTRUCTION⟩ ∧
      upstreamRequest ⟨some ("hi"), [⟨Role.user, ("earlier question")⟩]⟩ =
        upstreamRequest ⟨some ("hi"), []⟩) :=
  ⟨by decide, claim2_amended_prompt_only ("hi") [⟨Role.user, ("earlier question")⟩] [] (by decide)⟩

/-- Claim C3: after every completed exchange (a model turn appended once
the response has drained, i.e. the trimmed accumulated response is
nonempty), the conversation history holds at most 10 turns; when no
truncation is needed the history is exactly the old turns plus the new
model turn, and when truncation occurs exactly the most recent 10 turns
are kept, in order (oldest dropped first). -/
theorem claim3_history_cap (h : List Turn) (full : String) (hf : jsTrim full ≠ "") :
    (appendModelTurn h full).length ≤ 10 ∧
    ((h ++ [(⟨Role.model, jsTrim full⟩ : Turn)]).length ≤ 10 →
      appendModelTurn h full = h ++ [(⟨Role.model, jsTrim full⟩ : Turn)]) ∧
    (10 < (h ++ [(⟨Role.model, jsTrim full⟩ : Turn)]).length →
      appendModelTurn h full =
        (h ++ [(⟨Role.model, jsTrim full⟩ : Turn)]).drop
          ((h ++ [(⟨Role.model, jsTrim full⟩ : Turn)]).length - 10) ∧
      (appendModelTurn h full).length = 10) := by
  refine ⟨?_, ?_, ?_⟩
  · unfold appendModelTurn
    rw [if_neg hf]
    by_cases h10 : 10 < (h ++ [(⟨Role.model, jsTrim full⟩ : Turn)]).length
    · rw [if_pos h10]
      simp only [List.length_drop]
      omega
    · rw [if_neg h10]
      omega
  · intro hle
    unfold appendModelTurn
    rw [if_neg hf, if_neg (by omega)]
  · intro hgt
    unfold appendModelTurn
    rw [if_neg hf, if_pos hgt]
    refine ⟨rfl, ?_⟩
    simp only [List.length_drop]
    omega

/-- Witness for `claim3_history_cap` at a 10-turn history, exercising the
truncation branch. -/
theorem claim3_witness :
    jsTrim ("ok") ≠ "" ∧
    ((appendModelTurn (List.replicate 10 (⟨Role.user, ("x")⟩ : Turn)) ("ok")).length ≤ 10 ∧
      ((List.replicate 10 (⟨Role.user, ("x")⟩ : Turn) ++
          [(⟨Role.model, jsTrim ("ok")⟩ : Turn)]).length ≤ 10 →
        appendModelTurn (List.replicate 10 (⟨Role.user, ("x")⟩ : Turn)) ("ok") =
          List.replicate 10 (⟨Role.user, ("x")⟩ : Turn) ++ [(⟨Role.model, jsTrim ("ok")⟩ : Turn)]) ∧
      (10 < (List.replicate 10 (⟨Role.user, ("x")⟩ : Turn) ++
          [(⟨Role.model, jsTrim ("ok")⟩ : Turn)]).length →
        appendModelTurn (List.replicate 10 (⟨Role.user, ("x")⟩ : Turn)) ("ok") =
          (List.replicate 10 (⟨Role.user, ("x")⟩ : Turn) ++
              [(⟨Role.model, jsTrim ("ok")⟩ : Turn)]).drop
            ((List.replicate 10 (⟨Role.user, ("x")⟩ : Turn) ++
                [(⟨Role.model, jsTrim ("ok")⟩ : Turn)]).length - 10) ∧
        (appendModelTurn (List.replicate 10 (⟨Role.user, ("x")⟩ : Turn)) ("ok")).length = 10)) :=
  ⟨by decide, claim3_history_cap (List.replicate 10 (⟨Role.user, ("x")⟩ : Turn)) ("ok") (by decide)⟩

/-- Claim C4 counterexample: the normalization is not idempotent. On the
input backslash-star-star-star-star-n, the bold pass of the first
application deletes the four stars and brings the backslash next to the
`n`, which the escape pass of a second application then rewrites to a
newline — for the client `cleanChunk` and the server `cleanText` alike. -/
theorem claim4_cex_not_idempotent :
    cleanChunk (cleanChunk ("\x5c****n")) ≠ cleanChunk ("\x5c****n") ∧
    cleanText (cleanText ("\x5c****n")) ≠ cleanText ("\x5c****n") := by
  constructor <;> decide

/-- Claim C4, amended: `cleanChunk` and `cleanText` are idempotent on every
input whose normalized form contains no backslash, no two consecutive
stars, and does not match the respective JSON-envelope guard — then the
second application's unwrap, unescaping and bold-stripping are all
no-ops. -/
theorem claim4_amended_idempotent (x y : String)
    (hx1 : noBackslash (cleanChunk x).data = true)
    (hx2 : hasTwoStars (cleanChunk x).data = false)
    (hx3 : looksLikeJsonChunk (cleanChunk x).data = false)
    (hy1 : noBackslash (cleanText y).data = true)
    (hy2 : hasTwoStars (cleanText y).data = false)
    (hy3 : looksLikeJsonText (cleanText y).data = false) :
    cleanChunk (cleanChunk x) = cleanChunk x ∧ cleanText (cleanText y) = cleanText y := by
  constructor
  · show (⟨cleanChunkL (cleanChunk x).data⟩ : String) = cleanChunk x
    rw [cleanChunkL_fix _ hx1 hx2 hx3]
  · show (⟨cleanTextL (cleanText y).data⟩ : String) = cleanText y
    rw [cleanTextL_fix _ hy1 hy2 hy3]

/-- Witness for `claim4_amended_idempotent` at a concrete input. -/
theorem claim4_witness :
    noBackslash (cleanChunk ("**hello** world")).data = true ∧
    hasTwoStars (cleanChunk ("**hello** world")).data = false ∧
    looksLikeJsonChunk (cleanChunk ("**hello** world")).data = false ∧
    noBackslash (cleanText ("**hello** world")).data = true ∧
    hasTwoStars (cleanText ("**hello** world")).data = false ∧
    looksLikeJsonText (cleanText ("**hello** world")).data = false ∧
    (cleanChunk (cleanChunk ("**hello** world")) = cleanChunk ("**hello** world") ∧
      cleanText (cleanText ("**hello** world")) = cleanText ("**hello** world")) :=
  ⟨by decide, by decide, by decide, by decide, by decide, by decide,
    claim4_amended_idempotent ("**hello** world") ("**hello** world")
      (by decide) (by decide) (by decide) (by decide) (by decide) (by decide)⟩

/-- Claim C5 counterexample: cancelling mid-stream does not leave the
render queue empty. Aborting right after a chunk was received and enqueued
(before any render tick) leaves the enqueued characters in the queue: the
catch block only appends the marker and the `finally` block only stops the
timer, neither clears `typeQueue`. -/
theorem claim5_cex_queue_not_cleared :
    (sendPrompt initClient ("hi")
        (SendOutcome.abortError [StreamEv.recv ("hello")])).1.ui.typeQueue ≠ [] := by
  decide

/-- Claim C5, amended: for every send cancelled mid-stream via the abort
signal, exactly one cancellation marker is appended to the visible output
and the render-pump timer is stopped, but the render queue is not reset:
it still holds exactly the characters that were enqueued and not yet
rendered at the moment of the abort. -/
theorem claim5_amended_cancel (st : ClientState) (raw : String) (evs : List StreamEv)
    (h : jsTrim raw ≠ "") :
    (sendPrompt st raw (SendOutcome.abortError evs)).1.ui.respText =
      (readLoop ({ st.ui with respText := [] }, "") evs).1.respText ++ CANCEL_MARKER.data ∧
    (sendPrompt st raw (SendOutcome.abortError evs)).1.ui.typerOn = false ∧
    (sendPrompt st raw (SendOutcome.abortError evs)).1.ui.typeQueue =
      (readLoop ({ st.ui with respText := [] }, "") evs).1.typeQueue := by
  refine ⟨?_, ?_, ?_⟩ <;> simp [sendPrompt, h, stopTyper]

/-- Witness for `claim5_amended_cancel` at a concrete aborted send. -/
theorem claim5_witness :
    jsTrim ("hi") ≠ "" ∧
    ((sendPrompt initClient ("hi") (SendOutcome.abortError [])).1.ui.respText =
        (readLoop ({ initClient.ui with respText := [] }, "") []).1.respText ++
          CANCEL_MARKER.data ∧
      (sendPrompt initClient ("hi") (SendOutcome.abortError [])).1.ui.typerOn = false ∧
      (sendPrompt initClient ("hi") (SendOutcome.abortError [])).1.ui.typeQueue =
        (readLoop ({ initClient.ui with respText := [] }, "") []).1.typeQueue) :=
  ⟨by decide, claim5_amended_cancel initClient ("hi") [] (by decide)⟩

/-- Claim C6: when the caller disconnects while the relay server streams a
well-formed request (the flag is observed set from iteration `abortAt`
on), everything written comes from the chunks pulled before the
disconnect was detected — the cleaned, nonempty texts of the first
`abortAt` chunks, in order — the response is ended, and at most one more
chunk is pulled from upstream after the last write (the pull at whose
following check the flag is seen). -/
theorem claim6_disconnect_stops_pull (p : String) (hist : List Turn)
    (chunks : List String) (abortAt : Nat) (hp : p ≠ "") :
    handleGemini ⟨some p, hist⟩ (UpstreamBehavior.ok chunks) abortAt =
      ServerResponse.stream
        (((chunks.take abortAt).map cleanText).filter (fun t => t ≠ "")) true ∧
    (relayLoop chunks abortAt).2 ≤ abortAt + 1 := by
  constructor
  · simp [handleGemini, hp, relayLoop_writes]
  · rw [relayLoop_pulls]
    omega

/-- Witness for `claim6_disconnect_stops_pull`: the spec scenario of a
client disconnecting after 2 of 5 upstream chunks. -/
theorem claim6_witness :
    ("q" : String) ≠ "" ∧
    (handleGemini ⟨some ("q"), []⟩
        (UpstreamBehavior.ok [("c1"), ("c2"), ("c3"), ("c4"), ("c5")]) 2 =
      ServerResponse.stream
        ((([("c1"), ("c2"), ("c3"), ("c4"), ("c5")].take 2).map cleanText).filter
          (fun t => t ≠ "")) true ∧
    (relayLoop [("c1"), ("c2"), ("c3"), ("c4"), ("c5")] 2).2 ≤ 2 + 1) :=
  ⟨by decide, claim6_disconnect_stops_pull ("q") [] [("c1"), ("c2"), ("c3"), ("c4"), ("c5")] 2 (by decide)⟩

/-- Claim C7: every POST body with an absent or empty prompt is answered
with status 400 and the JSON error body, and no streaming response is
started (the response is the `jsonError` shape, which carries no stream
writes), whatever the upstream would have done. -/
theorem claim7_missing_prompt_400 (body : GeminiBody) (up : UpstreamBehavior)
    (abortAt : Nat) (h : body.prompt = none ∨ body.prompt = some "") :
    handleGemini body up abortAt = ServerResponse.jsonError 400 PROMPT_REQUIRED := by
  obtain ⟨p, hist⟩ := body
  rcases h with h | h <;> simp only at h <;> subst h <;> simp [handleGemini]

/-- Witness for `claim7_missing_prompt_400` at a concrete body. -/
theorem claim7_witness :
    ((⟨none, []⟩ : GeminiBody).prompt = none ∨
      (⟨none, []⟩ : GeminiBody).prompt = some "") ∧
    handleGemini ⟨none, []⟩ (UpstreamBehavior.ok [("hi")]) 5 =
      ServerResponse.jsonError 400 PROMPT_REQUIRED :=
  ⟨Or.inl rfl, claim7_missing_prompt_400 ⟨none, []⟩ (UpstreamBehavior.ok [("hi")]) 5 (Or.inl rfl)⟩

/-- Claim C8: for a well-formed request (nonempty prompt, caller still
connected), an error raised before any response bytes are written — a
throwing upstream call, or a stream-iteration error when every cleaned
chunk so far was empty so nothing was written — yields status 500 with a
JSON error body and no stream; an error raised after at least one write
yields the stream with the visible in-band marker appended, and the
response ended rather than dropped. -/
theorem claim8_error_handling (p : String) (hist : List Turn) (pre : List String)
    (abortAt : Nat) (hp : p ≠ "") (hab : pre.length ≤ abortAt) :
    handleGemini ⟨some p, hist⟩ UpstreamBehavior.initError abortAt =
      ServerResponse.jsonError 500 INTERNAL_ERROR ∧
    ((pre.map cleanText).filter (fun t => t ≠ "") = [] →
      handleGemini ⟨some p, hist⟩ (UpstreamBehavior.streamError pre) abortAt =
        ServerResponse.jsonError 500 STREAMING_ERROR) ∧
    ((pre.map cleanText).filter (fun t => t ≠ "") ≠ [] →
      handleGemini ⟨some p, hist⟩ (UpstreamBehavior.streamError pre) abortAt =
        ServerResponse.stream
          (((pre.map cleanText).filter (fun t => t ≠ "")) ++ [STREAM_ERROR_MARKER])
          true) := by
  have hno : ¬ abortAt < pre.length := by omega
  have hws : (relayLoop pre abortAt).1 = (pre.map cleanText).filter (fun t => t ≠ "") := by
    rw [relayLoop_writes, List.take_of_length_le hab]
  have hcore : handleGemini ⟨some p, hist⟩ (UpstreamBehavior.streamError pre) abortAt =
      (if (relayLoop pre abortAt).1 = [] then ServerResponse.jsonError 500 STREAMING_ERROR
       else ServerResponse.stream ((relayLoop pre abortAt).1 ++ [STREAM_ERROR_MARKER]) true) := by
    simp only [handleGemini, if_neg hp, if_neg hno]
  refine ⟨?_, ?_, ?_⟩
  · simp [handleGemini, hp]
  · intro hemp
    rw [hcore, hws, if_pos hemp]
  · intro hne
    rw [hcore, hws, if_neg hne]

/-- Witness for `claim8_error_handling`: a stream error after one
successfully forwarded chunk. -/
theorem claim8_witness :
    ("q" : String) ≠ "" ∧ ([("piece")] : List String).length ≤ 9 ∧
    (handleGemini ⟨some ("q"), []⟩ UpstreamBehavior.initError 9 =
      ServerResponse.jsonError 500 INTERNAL_ERROR ∧
    (([("piece")].map cleanText).filter (fun t => t ≠ "") = [] →
      handleGemini ⟨some ("q"), []⟩ (UpstreamBehavior.streamError [("piece")]) 9 =
        ServerResponse.jsonError 500 STREAMING_ERROR) ∧
    (([("piece")].map cleanText).filter (fun t => t ≠ "") ≠ [] →
      handleGemini ⟨some ("q"), []⟩ (UpstreamBehavior.streamError [("piece")]) 9 =
        ServerResponse.stream
          ((([("piece")].map cleanText).filter (fun t => t ≠ "")) ++ [STREAM_ERROR_MARKER])
          true)) :=
  ⟨by decide, by decide,
    claim8_error_handling ("q") [] [("piece")] 9 (by decide) (by decide)⟩

/-- Claim C9: for every prompt sent (whatever the outcome of the send),
the `conversationHistory` included in the request body equals the
conversation history exactly as it was before the user turn was appended:
the just-added turn is excluded and the list sent is the strictly prior
turns in their original order. -/
theorem claim9_history_sent_prior (st : ClientState) (raw : String)
    (outcome : SendOutcome) (h : jsTrim raw ≠ "") :
    (sendPrompt st raw outcome).2 = some ⟨jsTrim raw, st.history⟩ := by
  cases outcome with
  | success evs => simp [sendPrompt, h]
  | abortError evs => simp [sendPrompt, h]
  | fetchError evs msg => simp [sendPrompt, h]

/-- Witness for `claim9_history_sent_prior` at a one-turn prior history. -/
theorem claim9_witness :
    jsTrim ("next") ≠ "" ∧
    (sendPrompt ⟨[⟨Role.user, ("old")⟩], [⟨Role.user, ("old")⟩], initTyper, ("idle")⟩
        ("next") (SendOutcome.abortError [])).2 =
      some ⟨jsTrim ("next"), [⟨Role.user, ("old")⟩]⟩ :=
  ⟨by decide,
    claim9_history_sent_prior
      ⟨[⟨Role.user, ("old")⟩], [⟨Role.user, ("old")⟩], initTyper, ("idle")⟩
      ("next") (SendOutcome.abortError []) (by decide)⟩

/-- Claim C10: when a send is cancelled or fails with a network/server
error, the user turn appended and persisted before the request remains
both in the in-memory history and in per-page storage — the final history
is exactly the prior turns plus that user turn, so no model turn is
appended for the exchange and nothing is rolled back. -/
theorem claim10_user_turn_kept (st : ClientState) (raw : String)
    (evs : List StreamEv) (msg : String) (h : jsTrim raw ≠ "") :
    ((sendPrompt st raw (SendOutcome.abortError evs)).1.history =
        st.history ++ [(⟨Role.user, jsTrim raw⟩ : Turn)] ∧
      (sendPrompt st raw (SendOutcome.abortError evs)).1.stored =
        st.history ++ [(⟨Role.user, jsTrim raw⟩ : Turn)]) ∧
    ((sendPrompt st raw (SendOutcome.fetchError evs msg)).1.history =
        st.history ++ [(⟨Role.user, jsTrim raw⟩ : Turn)] ∧
      (sendPrompt st raw (SendOutcome.fetchError evs msg)).1.stored =
        st.history ++ [(⟨Role.user, jsTrim raw⟩ : Turn)]) := by
  refine ⟨⟨?_, ?_⟩, ⟨?_, ?_⟩⟩ <;> simp [sendPrompt, h]

/-- Witness for `claim10_user_turn_kept` at a concrete failed send. -/
theorem claim10_witness :
    jsTrim ("hi") ≠ "" ∧
    (((sendPrompt initClient ("hi") (SendOutcome.abortError [])).1.history =
        initClient.history ++ [(⟨Role.user, jsTrim ("hi")⟩ : Turn)] ∧
      (sendPrompt initClient ("hi") (SendOutcome.abortError [])).1.stored =
        initClient.history ++ [(⟨Role.user, jsTrim ("hi")⟩ : Turn)]) ∧
    ((sendPrompt initClient ("hi")
          (SendOutcome.fetchError [] ("boom"))).1.history =
        initClient.history ++ [(⟨Role.user, jsTrim ("hi")⟩ : Turn)] ∧
      (sendPrompt initClient ("hi")
          (SendOutcome.fetchError [] ("boom"))).1.stored =
        initClient.history ++ [(⟨Role.user, jsTrim ("hi")⟩ : Turn)])) :=
  ⟨by decide, claim10_user_turn_kept initClient ("hi") [] ("boom") (by decide)⟩

/-! ## Behavioural checks of the embedding on the spec's concrete scenarios -/

example : cleanChunk ("\x7b\"text\":\"Hi\x5cnthere\"\x7d") = ("Hi\nthere") := by decide

example : cleanChunk ("**bold**") = ("bold") := by decide

example : cleanText ("\x7b\"text\": oops") = ("\x7b\"text\": oops") := by decide

example :
    (drainQueue
        (readLoop (initTyper, "")
          [StreamEv.recv ("ab"), StreamEv.tick, StreamEv.recv ("cde"), StreamEv.tick]).1).respText =
      ("abcde").data := by decide

end GeminiScraper
